import Mathlib

/-!
Verification development for the agnoio command/control arbiter.

The Go sources are shallowly embedded: byte slices become `List Nat`,
Go strings become `List Char`, Go `error` values become `Option GoErr`
(`none` is the nil error), and the regexp matchers of a `Command` become
opaque boolean predicates.  The accumulator goroutine `Arb.readUntil` is
embedded as a recursive function driven by an explicit trace: one
`SelectCtl` record per outer loop iteration (which `select` cases are
ready, plus the random tie-break Go applies when several are ready) and a
global list of `ReadEvt` items, one per `bufio.Reader.ReadByte` call
result delivered by the underlying stream.  Wall-clock time is not
modelled; the firing of the timeout context appears as the
`timeoutDone` flag of an iteration.
-/

namespace agnoio

/-- Go error values as far as this package inspects them.  `netErr` is the
package's `neterror` (errors.go), which implements `net.Error`; `plainErr`
is an `errors.New`/`errors.Errorf` value and `wrapped` an `errors.Wrap`
value, neither of which implements `net.Error`; `nilErr` is Go's nil
error where it is observable as a value — only as the inner error of a
`neterror`, since `SerialClient.Close` wraps its `conn.Close()` result in
`newErr` unconditionally (a nil interface does not cast to `net.Error`,
so both predicates report false on it).  Sentinel errors are
compared structurally here; each sentinel's message is unique in the
package, so structural equality coincides with Go's identity comparison
for the values this development inspects. -/
inductive GoErr : Type where
  | netErr (temporary timeout : Bool) (inner : GoErr)
  | plainErr (msg : String)
  | wrapped (msg : String) (inner : GoErr)
  | nilErr
deriving DecidableEq, Repr

/-- errors.go: `newErr(temporary, timeout bool, err error) *neterror`. -/
def newErr (temporary timeout : Bool) (inner : GoErr) : GoErr :=
  GoErr.netErr temporary timeout inner

/-- errors.go: `IsTemporary`.  Panics on a nil error (modelled as `none`
in the result); otherwise casts to `net.Error` and reads `.Temporary()`,
returning false when the cast fails. -/
def IsTemporary : Option GoErr → Option Bool
  | none => none
  | some (GoErr.netErr temporary _ _) => some temporary
  | some (GoErr.plainErr _) => some false
  | some (GoErr.wrapped _ _) => some false
  | some GoErr.nilErr => some false

/-- errors.go: `IsTimeout`.  Panics on a nil error (modelled as `none` in
the result); otherwise casts to `net.Error` and reads `.Timeout()`,
returning false when the cast fails. -/
def IsTimeout : Option GoErr → Option Bool
  | none => none
  | some (GoErr.netErr _ timeout _) => some timeout
  | some (GoErr.plainErr _) => some false
  | some (GoErr.wrapped _ _) => some false
  | some GoErr.nilErr => some false

/-- doc.go: `ErrBytesArgs = errors.Errorf(...)`. -/
def ErrBytesArgs : GoErr :=
  GoErr.plainErr "Proper arguments not provided to expand command into bytes"

/-- doc.go: `ErrBytesFormat = errors.Errorf(...)`. -/
def ErrBytesFormat : GoErr :=
  GoErr.plainErr "Formed command does not match allowable format for outgoing commands"

/-- doc.go: `ErrErrorResponse = newErr(false, false, errors.New("Command received error response"))`. -/
def ErrErrorResponse : GoErr :=
  newErr false false (GoErr.plainErr "Command received error response")

/-- command-response.go: the `Command` value type.  The three `*regexp.Regexp`
fields are embedded as opaque matchers (`MatchString` for `CommandRegexp`,
byte-level `Match` for `Response` and `Error`), `nil` being `none`.
`Timeout` is a duration in nanoseconds; the model does not measure time, the
field is kept for completeness. -/
structure Command : Type where
  Name : String
  Timeout : Nat
  Prototype : String
  CommandRegexp : Option (List Char → Bool)
  Response : Option (List Nat → Bool)
  Error : Option (List Nat → Bool)
  Description : String

/-- arbiter source (part_003 lines 40-51): the `ExitCriteria` constants a
`CheckFunc` may return. -/
inductive ExitCriteria : Type where
  | Insufficient
  | Failure
  | Success
deriving DecidableEq, Repr

/-- arbiter source: `CheckFunc` classifies the accumulated bytes. -/
abbrev CheckFunc : Type := List Nat → ExitCriteria

/-- `strings.Contains` / `bytes.Contains`: `needle` occurs as a contiguous
run inside `hay`. -/
def containsSeq {α : Type} [DecidableEq α] (hay needle : List α) : Bool :=
  decide (needle <:+: hay)

/-- command-response.go: `Command.Bytes(v ...interface{})`.  The call
`fmt.Sprintf(c.Prototype, v...)` is external formatting; the model takes
its output `str` as the argument, so quantifying over `str` covers every
possible argument list.  The body then follows the source: a rendered
string containing `"%!"` signals `ErrBytesArgs`; otherwise a non-nil
`CommandRegexp` that fails to match signals `ErrBytesFormat`; the rendered
bytes are returned in every case. -/
def Command.Bytes (c : Command) (str : List Char) : List Char × Option GoErr :=
  if containsSeq str ['%', '!'] then (str, some ErrBytesArgs)
  else
    match c.CommandRegexp with
    | some re => if !re str then (str, some ErrBytesFormat) else (str, none)
    | none => (str, none)

/-- One result of a `bufio.Reader.ReadByte` call against the underlying
stream: a byte, or an error.  `isNet` says whether the error value
implements `net.Error`; `temporary`/`timeout` are its flags when it
does. -/
inductive ReadEvt : Type where
  | byte (b : Nat)
  | err (isNet temporary timeout : Bool)
deriving DecidableEq, Repr

/-- The bytes a stream trace delivers, in order. -/
def streamBytes : List ReadEvt → List Nat
  | [] => []
  | ReadEvt.byte b :: rest => b :: streamBytes rest
  | ReadEvt.err _ _ _ :: rest => streamBytes rest

/-- Outcome of the inner `for reading` loop of `Arb.readUntil`:
`exit` leaves the loop after a timeout-flavoured read error (the rest of
the trace is untouched), `fatal` is the terminal read-failure branch, and
`starved` marks a trace that ran out while the loop would read again. -/
inductive InnerOut : Type where
  | exit (acc : List Nat) (rest : List ReadEvt)
  | fatal (acc : List Nat)
  | starved (acc : List Nat)
deriving DecidableEq, Repr

/-- part_003 lines 327-345: the inner byte pump of `Arb.readUntil`.  A nil
read error appends the byte; a `net.Error` with `Timeout()` stops the pump
for this iteration; a `net.Error` with neither `Timeout()` nor
`Temporary()` is terminal; every other error (temporary net.Error or an
error that is not a net.Error) leaves `reading` true and the pump reads
again. -/
def innerRead : List ReadEvt → List Nat → InnerOut
  | [], acc => InnerOut.starved acc
  | ReadEvt.byte b :: rest, acc => innerRead rest (acc ++ [b])
  | ReadEvt.err isNet temporary timeout :: rest, acc =>
    if isNet then
      if timeout then InnerOut.exit acc rest
      else if !temporary then InnerOut.fatal acc
      else innerRead rest acc
    else innerRead rest acc

/-- Control information for one outer iteration of `Arb.readUntil`: whether
`a.ctx.Done()` and `timeoutctx.Done()` are ready when the `select` runs,
and Go's random tie-break (`pickCtx`) applied when both are ready.  (In a
real trace `ctxDone` implies `timeoutDone` since `timeoutctx` derives from
`a.ctx`; no theorem needs that invariant.) -/
structure SelectCtl : Type where
  ctxDone : Bool
  timeoutDone : Bool
  pickCtx : Bool
deriving DecidableEq, Repr

/-- part_003 lines 297-301: the `status` message handed from `readUntil`
back to the calling operation. -/
structure status : Type where
  raw : List Nat
  err : Option GoErr
deriving DecidableEq, Repr

/-- An event on the handoff channel `dataChan`: a send of one status value,
or the close performed by the deferred `close(dataChan)`. -/
inductive ChanEvt : Type where
  | send (st : status)
  | close
deriving DecidableEq, Repr

/-- Which terminal branch of `readUntil` fired.  Ghost information: the Go
code does not reify it; it is recorded so theorems can name the reason a
run ended. -/
inductive TermKind : Type where
  | cancelled
  | timedOut
  | streamFatal
  | failureMatch
  | successMatch
deriving DecidableEq, Repr

/-- The cancel-branch error of `readUntil`:
`newErr(false, false, errors.Wrap(a.ctx.Err(), "Arbiter's context chain has collapsed"))`,
with `a.ctx.Err()` being `context.Canceled`. -/
def ctxCollapsedErr : GoErr :=
  newErr false false
    (GoErr.wrapped "Arbiter's context chain has collapsed" (GoErr.plainErr "context canceled"))

/-- The timeout-branch error of `readUntil`:
`newErr(true, true, errors.Wrap(timeoutctx.Err(), "Command timed out before receiving the proper response"))`,
with `timeoutctx.Err()` being `context.DeadlineExceeded`. -/
def cmdTimedOutErr : GoErr :=
  newErr true true
    (GoErr.wrapped "Command timed out before receiving the proper response"
      (GoErr.plainErr "context deadline exceeded"))

/-- The fatal-read-branch error of `readUntil`:
`newErr(false, true, errors.New("Error Reading from buffer"))` — a fresh
error, with temporary=false and timeout=true (the first `newErr` argument
is the temporary flag). -/
def readFatalErr : GoErr :=
  newErr false true (GoErr.plainErr "Error Reading from buffer")

/-- part_003 lines 310-358: `Arb.readUntil`, driven by the select trace
`ctl` and the stream trace.  Returns every event on `dataChan` paired with
the terminal branch and status, or `none` when the driving trace ends
before the loop does (the goroutine is still running; on a real clock the
`timeoutDone` flag eventually fires).  Each terminal branch performs one
send and then returns, which runs the deferred `close(dataChan)`. -/
def readUntil (checkFunc : CheckFunc) :
    List SelectCtl → List ReadEvt → List Nat → List ChanEvt × Option (TermKind × status)
  | [], _, _ => ([], none)
  | c :: ctl, stream, acc =>
    if c.ctxDone && (!c.timeoutDone || c.pickCtx) then
      ([ChanEvt.send ⟨acc, some ctxCollapsedErr⟩, ChanEvt.close],
        some (TermKind.cancelled, ⟨acc, some ctxCollapsedErr⟩))
    else if c.timeoutDone then
      ([ChanEvt.send ⟨acc, some cmdTimedOutErr⟩, ChanEvt.close],
        some (TermKind.timedOut, ⟨acc, some cmdTimedOutErr⟩))
    else
      match innerRead stream acc with
      | InnerOut.starved _ => ([], none)
      | InnerOut.fatal acc2 =>
        ([ChanEvt.send ⟨acc2, some readFatalErr⟩, ChanEvt.close],
          some (TermKind.streamFatal, ⟨acc2, some readFatalErr⟩))
      | InnerOut.exit acc2 rest =>
        match checkFunc acc2 with
        | ExitCriteria.Insufficient => readUntil checkFunc ctl rest acc2
        | ExitCriteria.Failure =>
          ([ChanEvt.send ⟨acc2, some ErrErrorResponse⟩, ChanEvt.close],
            some (TermKind.failureMatch, ⟨acc2, some ErrErrorResponse⟩))
        | ExitCriteria.Success =>
          ([ChanEvt.send ⟨acc2, none⟩, ChanEvt.close],
            some (TermKind.successMatch, ⟨acc2, none⟩))

/-- part_003 lines 180-189: `Arb.clearReadBuffer` reads bytes one at a
time until a read returns an error, discarding everything it consumed
(bytes and the terminating error alike).  The result is the remainder of
the stream trace. -/
def clearReadBuffer : List ReadEvt → List ReadEvt
  | [] => []
  | ReadEvt.byte _ :: rest => clearReadBuffer rest
  | ReadEvt.err _ _ _ :: rest => rest

/-- `failure != nil && bytes.Contains(raw, failure)` and its success twin:
a nil criterion never matches. -/
def optContains (pat : Option (List Nat)) (raw : List Nat) : Bool :=
  match pat with
  | some p => containsSeq raw p
  | none => false

/-- part_003 lines 227-235: the classifier closure `cf` of `Arb.Simple` —
the failure marker is tested first, the success marker second. -/
def simpleCf (success failure : Option (List Nat)) (raw : List Nat) : ExitCriteria :=
  if optContains failure raw then ExitCriteria.Failure
  else if optContains success raw then ExitCriteria.Success
  else ExitCriteria.Insufficient

/-- `cmd.Error != nil && cmd.Error.Match(raw)` and its `Response` twin: a
nil regexp never matches. -/
def optMatch (re : Option (List Nat → Bool)) (raw : List Nat) : Bool :=
  match re with
  | some m => m raw
  | none => false

/-- part_003 lines 280-288: the classifier closure `cf` of `Arb.Control` —
the Command's `Error` regexp is tested first, its `Response` regexp
second. -/
def controlCf (cmd : Command) (raw : List Nat) : ExitCriteria :=
  if optMatch cmd.Error raw then ExitCriteria.Failure
  else if optMatch cmd.Response raw then ExitCriteria.Success
  else ExitCriteria.Insufficient

/-- command-response.go: the `Response` value returned to the caller
(`Duration` is wall-clock bookkeeping and is not modelled). -/
structure Response : Type where
  Bytes : List Nat
  Error : Option GoErr
deriving DecidableEq, Repr

/-- Ghost tag naming the path on which a Simple/Control call returned. -/
inductive CallTerm : Type where
  | renderFail
  | writeFail
  | acc (k : TermKind)
deriving DecidableEq, Repr

/-- part_003 lines 211-242: `Arb.Simple`.  `wr` is the `(n, werr)` result
of `a.idotoo.Write(cmd)`; `stream` is the trace of ReadByte results the
stream delivers, consumed first by `clearReadBuffer` and then by
`readUntil`; `ctl` drives `readUntil`.  `none` means the call has not yet
returned within the supplied trace. -/
def Simple (cmd : List Nat) (success failure : Option (List Nat))
    (wr : Nat × Option GoErr) (stream : List ReadEvt) (ctl : List SelectCtl) :
    Option (CallTerm × Response) :=
  if wr.2.isSome || cmd.length != wr.1 then some (CallTerm.writeFail, ⟨[], wr.2⟩)
  else
    match (readUntil (simpleCf success failure) ctl (clearReadBuffer stream) []).2 with
    | none => none
    | some (k, st) => some (CallTerm.acc k, ⟨st.raw, st.err⟩)

/-- part_003 lines 258-295: `Arb.Control`.  `rendered` is the
`fmt.Sprintf` output fed to `cmd.Bytes` (see `Command.Bytes`); the other
arguments are as in `Simple`. -/
def Control (cmd : Command) (rendered : List Char)
    (wr : Nat × Option GoErr) (stream : List ReadEvt) (ctl : List SelectCtl) :
    Option (CallTerm × Response) :=
  match Command.Bytes cmd rendered with
  | (_, some e) => some (CallTerm.renderFail, ⟨[], some e⟩)
  | (rawBytes, none) =>
    if wr.2.isSome || rawBytes.length != wr.1 then some (CallTerm.writeFail, ⟨[], wr.2⟩)
    else
      match (readUntil (controlCf cmd) ctl (clearReadBuffer stream) []).2 with
      | none => none
      | some (k, st) => some (CallTerm.acc k, ⟨st.raw, st.err⟩)

/-- part_002: the mutable state of a `NetClient` as far as `Close` touches
it: whether its private context has been cancelled, and the `conn` field
(`none` is a nil `net.Conn`). -/
structure NetClient : Type where
  ctxDone : Bool
  conn : Option Unit
deriving DecidableEq, Repr

/-- A `conn.Close()` call on a `net.Conn` field: dereferencing a nil
connection panics (modelled as `none`); otherwise the OS-level close
returns `res`, supplied as a parameter. -/
def connClose (conn : Option Unit) (res : Option GoErr) : Option (Option GoErr) :=
  match conn with
  | none => none
  | some _ => some res

/-- part_002 lines 556-563: `NetClient.Close`: cancel the private context,
return `conn.Close()` when a connection is present and nil otherwise, and
nil the `conn` field in a defer.  `none` marks a panic. -/
def NetClient.Close (nc : NetClient) (res : Option GoErr) : Option (Option GoErr × NetClient) :=
  if nc.conn.isSome then
    match connClose nc.conn res with
    | none => none
    | some e => some (e, ⟨true, none⟩)
  else some (none, ⟨true, none⟩)

/-- part_006: the mutable state of a `SerialClient` as far as `Close`
touches it: whether its private context (a sibling of the arbiter's,
derived from the same parent) has been cancelled, and the `conn` field
(`none` is a nil `serial.Port`). -/
structure SerialClient : Type where
  ctxDone : Bool
  conn : Option Unit
deriving DecidableEq, Repr

/-- Go's nil error where it is wrapped into a `neterror`
(`newErr(false, false, sc.conn.Close())` with a clean close). -/
def innerOrNil : Option GoErr → GoErr
  | some e => e
  | none => GoErr.nilErr

/-- part_006 lines 150-161: `SerialClient.Close`: the deferred
`sc.conn = nil` always runs; a collapsed context returns
`newErr(false, false, sc.ctx.Err())` (non-nil even after an earlier
successful close); an open connection returns its close result wrapped in
`newErr(false, false, ...)` (a non-nil error value even when the port
closed cleanly); otherwise nil.  `Close` does not cancel the context, so
`ctxDone` is preserved.  `none` marks a panic (the nil dereference is
guarded by the `sc.conn != nil` check). -/
def SerialClient.Close (sc : SerialClient) (res : Option GoErr) :
    Option (Option GoErr × SerialClient) :=
  if sc.ctxDone then
    some (some (newErr false false (GoErr.plainErr "context canceled")),
      ⟨sc.ctxDone, none⟩)
  else if sc.conn.isSome then
    match connClose sc.conn res with
    | none => none
    | some e => some (some (newErr false false (innerOrNil e)), ⟨sc.ctxDone, none⟩)
  else some (none, ⟨sc.ctxDone, none⟩)

/-- The transports the `IDoIO` interface field of an `Arb` may hold:
the two constructors of the i-do-io.go registry, and the `InvalidIO`
placeholder.  `InvalidIO`'s defining file is not among the provided
sources; its `Close` result is taken from the environment parameter
unchanged (the spec treats the placeholder only as a non-nil stand-in). -/
inductive IDoIOState : Type where
  | net (nc : NetClient)
  | serial (sc : SerialClient)
  | invalid (msg : String)
deriving DecidableEq, Repr

/-- Dispatch of the interface call `a.idotoo.Close()` to the transport
the interface holds. -/
def IDoIOState.Close : IDoIOState → Option GoErr → Option (Option GoErr × IDoIOState)
  | IDoIOState.net nc, res =>
    match NetClient.Close nc res with
    | none => none
    | some (e, nc2) => some (e, IDoIOState.net nc2)
  | IDoIOState.serial sc, res =>
    match SerialClient.Close sc res with
    | none => none
    | some (e, sc2) => some (e, IDoIOState.serial sc2)
  | IDoIOState.invalid msg, res => some (res, IDoIOState.invalid msg)

/-- part_003 lines 122-127: the `Arb` fields its `Close` touches (the
mutex only serialises; it does not change the result).  The `idotoo`
field is the `IDoIO` interface and may hold any of the transports. -/
structure Arb : Type where
  ctxDone : Bool
  idotoo : IDoIOState
deriving DecidableEq, Repr

/-- part_003 lines 152-157: `Arb.Close`: cancel the arbiter's context
(this does not cancel the transport's sibling context), take the lock,
and delegate to the wrapped stream's `Close`. -/
def Arb.Close (a : Arb) (res : Option GoErr) : Option (Option GoErr × Arb) :=
  match IDoIOState.Close a.idotoo res with
  | none => none
  | some (e, s) => some (e, ⟨true, s⟩)

/-- The value held by the `IDoIO` interface that `NewIDoIO` returns.
`invalid` is the package's `InvalidIO` string type: its defining file is
not among the provided sources, so it is modelled from its use in
i-do-io.go as a placeholder built from the error text. -/
inductive IDoIOv : Type where
  | net (dial : String)
  | serial (dial : String)
  | invalid (msg : String)
deriving DecidableEq, Repr

/-- i-do-io.go lines 59-68: `NewIDoIO`.  The `known` registry maps two
dial-string regexps to constructors; they are passed here as opaque
matchers (Go iterates the map in unspecified order; the theorems below
only use the all-miss case and the non-nilness of the result, which are
order-independent).  `openErr` is the outcome of the matched transport's
construction (`NewNetClient`/`NewSerialClient` return a non-nil client
together with their `Open()` error once the dial string has matched).
The first component is `none` exactly when the returned Go interface
value would be nil. -/
def NewIDoIOv (netMatch serialMatch : String → Bool) (openErr : Option GoErr)
    (dial : String) : Option IDoIOv × Option GoErr :=
  if netMatch dial then (some (IDoIOv.net dial), openErr)
  else if serialMatch dial then (some (IDoIOv.serial dial), openErr)
  else
    (some (IDoIOv.invalid ("No known way to create a IOStreamer from " ++ dial)),
      some (newErr false false
        (GoErr.plainErr ("No known way to create a IOStreamer from " ++ dial))))

/-- An `Arbiter` as returned by `NewArbiter`: `Arbitrate` always returns a
fresh `&Arb{...}` wrapping whatever IDoIO it was handed, so the wrapper
itself can never be nil while the wrapped interface may be. -/
structure ArbWrap : Type where
  idotoo : Option IDoIOv
deriving DecidableEq, Repr

/-- part_003 lines 101-105: `NewArbiter`: build the IDoIO, wrap it via
`Arbitrate` discarding nothing but the cancel function, and return the
wrapper together with the IDoIO construction error. -/
def NewArbiter (netMatch serialMatch : String → Bool) (openErr : Option GoErr)
    (dial : String) : Option ArbWrap × Option GoErr :=
  let r := NewIDoIOv netMatch serialMatch openErr dial
  (some ⟨r.1⟩, r.2)

/-! Helper lemmas about the accumulator. -/

/-- When the inner pump leaves the loop normally, the accumulator grew by
exactly the bytes the consumed part of the trace delivered, and the
remainder of the trace carries the remaining bytes. -/
theorem innerRead_exit_spec :
    ∀ (stream : List ReadEvt) (acc acc2 : List Nat) (rest : List ReadEvt),
      innerRead stream acc = InnerOut.exit acc2 rest →
      ∃ q, acc2 = acc ++ q ∧ streamBytes stream = q ++ streamBytes rest
  | [], acc, acc2, rest, h => by simp [innerRead] at h
  | ReadEvt.byte b :: tail, acc, acc2, rest, h => by
    simp only [innerRead] at h
    obtain ⟨q, hq, hs⟩ := innerRead_exit_spec tail (acc ++ [b]) acc2 rest h
    exact ⟨b :: q, by simpa using hq, by simpa [streamBytes] using hs⟩
  | ReadEvt.err isNet temporary timeout :: tail, acc, acc2, rest, h => by
    simp only [innerRead] at h
    by_cases hn : isNet
    · simp only [hn, if_true] at h
      by_cases ht : timeout
      · simp only [ht, if_true] at h
        obtain ⟨h1, h2⟩ := InnerOut.exit.inj h
        exact ⟨[], by simp [h1.symm], by simp [streamBytes, h2]⟩
      · simp only [ht, if_false] at h
        by_cases htemp : temporary
        · simp only [htemp] at h
          obtain ⟨q, hq, hs⟩ := innerRead_exit_spec tail acc acc2 rest h
          exact ⟨q, hq, by simpa [streamBytes] using hs⟩
        · simp [htemp] at h
    · simp only [hn, if_false] at h
      obtain ⟨q, hq, hs⟩ := innerRead_exit_spec tail acc acc2 rest h
      exact ⟨q, hq, by simpa [streamBytes] using hs⟩

/-- When the inner pump hits a fatal read error, the accumulator grew by a
prefix of the bytes the trace delivers. -/
theorem innerRead_fatal_spec :
    ∀ (stream : List ReadEvt) (acc acc2 : List Nat),
      innerRead stream acc = InnerOut.fatal acc2 →
      ∃ q t, acc2 = acc ++ q ∧ streamBytes stream = q ++ t
  | [], acc, acc2, h => by simp [innerRead] at h
  | ReadEvt.byte b :: tail, acc, acc2, h => by
    simp only [innerRead] at h
    obtain ⟨q, t, hq, hs⟩ := innerRead_fatal_spec tail (acc ++ [b]) acc2 h
    exact ⟨b :: q, t, by simpa using hq, by simpa [streamBytes] using hs⟩
  | ReadEvt.err isNet temporary timeout :: tail, acc, acc2, h => by
    simp only [innerRead] at h
    by_cases hn : isNet
    · simp only [hn, if_true] at h
      by_cases ht : timeout
      · simp [ht] at h
      · simp only [ht, if_false] at h
        by_cases htemp : temporary
        · simp only [htemp] at h
          obtain ⟨q, t, hq, hs⟩ := innerRead_fatal_spec tail acc acc2 h
          exact ⟨q, t, hq, by simpa [streamBytes] using hs⟩
        · simp only [htemp] at h
          have h1 := InnerOut.fatal.inj h
          exact ⟨[], streamBytes tail, by simp [h1], by simp [streamBytes]⟩
    · simp only [hn, if_false] at h
      obtain ⟨q, t, hq, hs⟩ := innerRead_fatal_spec tail acc acc2 h
      exact ⟨q, t, hq, by simpa [streamBytes] using hs⟩

/-- The channel events of a readUntil run are determined by its outcome: a
run that reaches a terminal branch sends exactly the terminal status and
then closes, and a run that exhausts its driving trace has sent nothing
yet. -/
theorem readUntil_events_eq (cf : CheckFunc) :
    ∀ (ctl : List SelectCtl) (stream : List ReadEvt) (acc : List Nat),
      (readUntil cf ctl stream acc).1 =
        (match (readUntil cf ctl stream acc).2 with
          | some (_, st) => [ChanEvt.send st, ChanEvt.close]
          | none => [])
  | [], stream, acc => by simp [readUntil]
  | c :: ctl, stream, acc => by
    simp only [readUntil]
    split
    · rfl
    · split
      · rfl
      · split
        · rfl
        · rfl
        · split
          · exact readUntil_events_eq cf ctl _ _
          · rfl
          · rfl

/-- The terminal status of each readUntil branch: the error it carries
and, for the classifier branches, the classifier's verdict on the returned
bytes. -/
theorem readUntil_kind_spec (cf : CheckFunc) :
    ∀ (ctl : List SelectCtl) (stream : List ReadEvt) (acc : List Nat) (k : TermKind) (st : status),
      (readUntil cf ctl stream acc).2 = some (k, st) →
      ((k = TermKind.cancelled → st.err = some ctxCollapsedErr) ∧
        (k = TermKind.timedOut → st.err = some cmdTimedOutErr) ∧
        (k = TermKind.streamFatal → st.err = some readFatalErr) ∧
        (k = TermKind.failureMatch →
          st.err = some ErrErrorResponse ∧ cf st.raw = ExitCriteria.Failure) ∧
        (k = TermKind.successMatch → st.err = none ∧ cf st.raw = ExitCriteria.Success))
  | [], stream, acc, k, st, h => by simp [readUntil] at h
  | c :: ctl, stream, acc, k, st, h => by
    simp only [readUntil] at h
    split at h
    · simp only [Option.some.injEq, Prod.mk.injEq] at h
      obtain ⟨hk, hst⟩ := h
      subst hk; subst hst
      refine ⟨fun _ => rfl, ?_, ?_, ?_, ?_⟩ <;> intro hk <;> simp at hk
    · split at h
      · simp only [Option.some.injEq, Prod.mk.injEq] at h
        obtain ⟨hk, hst⟩ := h
        subst hk; subst hst
        refine ⟨?_, fun _ => rfl, ?_, ?_, ?_⟩ <;> intro hk <;> simp at hk
      · split at h
        · simp at h
        · simp only [Option.some.injEq, Prod.mk.injEq] at h
          obtain ⟨hk, hst⟩ := h
          subst hk; subst hst
          refine ⟨?_, ?_, fun _ => rfl, ?_, ?_⟩ <;> intro hk <;> simp at hk
        · split at h
          · exact readUntil_kind_spec cf ctl _ _ k st h
          · rename_i acc2 rest hi hc
            simp only [Option.some.injEq, Prod.mk.injEq] at h
            obtain ⟨hk, hst⟩ := h
            subst hk; subst hst
            refine ⟨?_, ?_, ?_, fun _ => ⟨rfl, hc⟩, ?_⟩ <;> intro hk <;> simp at hk
          · rename_i acc2 rest hi hc
            simp only [Option.some.injEq, Prod.mk.injEq] at h
            obtain ⟨hk, hst⟩ := h
            subst hk; subst hst
            refine ⟨?_, ?_, ?_, ?_, fun _ => ⟨rfl, hc⟩⟩ <;> intro hk <;> simp at hk

/-- The bytes of a terminal status extend the accumulator the run started
with by a prefix of the bytes the stream trace delivers. -/
theorem readUntil_raw_prefix (cf : CheckFunc) :
    ∀ (ctl : List SelectCtl) (stream : List ReadEvt) (acc : List Nat) (k : TermKind) (st : status),
      (readUntil cf ctl stream acc).2 = some (k, st) →
      ∃ p, st.raw = acc ++ p ∧ p <+: streamBytes stream
  | [], stream, acc, k, st, h => by simp [readUntil] at h
  | c :: ctl, stream, acc, k, st, h => by
    simp only [readUntil] at h
    split at h
    · simp only [Option.some.injEq, Prod.mk.injEq] at h
      obtain ⟨hk, hst⟩ := h
      subst hst
      exact ⟨[], by simp, List.nil_prefix⟩
    · split at h
      · simp only [Option.some.injEq, Prod.mk.injEq] at h
        obtain ⟨hk, hst⟩ := h
        subst hst
        exact ⟨[], by simp, List.nil_prefix⟩
      · split at h
        · simp at h
        · rename_i acc2 hi
          simp only [Option.some.injEq, Prod.mk.injEq] at h
          obtain ⟨hk, hst⟩ := h
          subst hst
          obtain ⟨q, t, hq, hs⟩ := innerRead_fatal_spec stream acc acc2 hi
          exact ⟨q, hq, ⟨t, hs.symm⟩⟩
        · split at h
          · rename_i acc2 rest hi x hc
            obtain ⟨p, hp, hpre⟩ := readUntil_raw_prefix cf ctl rest acc2 k st h
            obtain ⟨q, hq, hs⟩ := innerRead_exit_spec stream acc acc2 rest hi
            obtain ⟨u, hu⟩ := hpre
            refine ⟨q ++ p, by rw [hp, hq, List.append_assoc], ⟨u, ?_⟩⟩
            rw [hs, List.append_assoc, hu]
          · rename_i acc2 rest hi x hc
            simp only [Option.some.injEq, Prod.mk.injEq] at h
            obtain ⟨hk, hst⟩ := h
            subst hst
            obtain ⟨q, hq, hs⟩ := innerRead_exit_spec stream acc acc2 rest hi
            exact ⟨q, hq, ⟨streamBytes rest, hs.symm⟩⟩
          · rename_i acc2 rest hi x hc
            simp only [Option.some.injEq, Prod.mk.injEq] at h
            obtain ⟨hk, hst⟩ := h
            subst hst
            obtain ⟨q, hq, hs⟩ := innerRead_exit_spec stream acc acc2 rest hi
            exact ⟨q, hq, ⟨streamBytes rest, hs.symm⟩⟩

/-- A terminal status with a nil error can only come from the Success
branch of the classifier. -/
theorem readUntil_nil_err_success (cf : CheckFunc) (ctl : List SelectCtl)
    (stream : List ReadEvt) (acc : List Nat) (k : TermKind) (st : status)
    (h : (readUntil cf ctl stream acc).2 = some (k, st)) (he : st.err = none) :
    cf st.raw = ExitCriteria.Success := by
  obtain ⟨h1, h2, h3, h4, h5⟩ := readUntil_kind_spec cf ctl stream acc k st h
  cases k with
  | cancelled => rw [h1 rfl] at he; simp at he
  | timedOut => rw [h2 rfl] at he; simp at he
  | streamFatal => rw [h3 rfl] at he; simp at he
  | failureMatch => rw [(h4 rfl).1] at he; simp at he
  | successMatch => exact (h5 rfl).2

/-- The Simple classifier returns Success exactly when the failure marker
does not hit and the success marker does. -/
theorem simpleCf_success_iff (success failure : Option (List Nat)) (raw : List Nat) :
    simpleCf success failure raw = ExitCriteria.Success ↔
      optContains failure raw = false ∧ optContains success raw = true := by
  unfold simpleCf
  by_cases hf : optContains failure raw = true
  · simp [hf]
  · by_cases hs : optContains success raw = true <;> simp [hf, hs]

/-- The Control classifier returns Success exactly when the Error regexp
does not match and the Response regexp does. -/
theorem controlCf_success_iff (cmd : Command) (raw : List Nat) :
    controlCf cmd raw = ExitCriteria.Success ↔
      optMatch cmd.Error raw = false ∧ optMatch cmd.Response raw = true := by
  unfold controlCf
  by_cases hf : optMatch cmd.Error raw = true
  · simp [hf]
  · by_cases hs : optMatch cmd.Response raw = true <;> simp [hf, hs]

/-! The claims. -/

/-- Claim C1: for every Simple or Control call that reaches the
accumulator, a readUntil run that reaches a terminal branch emits exactly
one send of its terminal status on the handoff channel, immediately
followed by the close of that channel and nothing else — it never sends a
second value after reporting Success, Failure, timeout, or cancellation —
and a run that has not yet terminated has sent nothing, so the calling
operation's single blocking receive observes precisely one terminal
outcome. -/
theorem c1_single_terminal_handoff (cf : CheckFunc) (ctl : List SelectCtl)
    (stream : List ReadEvt) (acc : List Nat) :
    (∀ k st, (readUntil cf ctl stream acc).2 = some (k, st) →
      (readUntil cf ctl stream acc).1 = [ChanEvt.send st, ChanEvt.close]) ∧
    ((readUntil cf ctl stream acc).2 = none → (readUntil cf ctl stream acc).1 = []) := by
  constructor
  · intro k st h
    rw [readUntil_events_eq cf ctl stream acc, h]
  · intro h
    rw [readUntil_events_eq cf ctl stream acc, h]

/-- A run of the accumulator on a one-iteration trace whose timeout has
fired: the handoff channel sees exactly the one send and the close. -/
theorem c1_single_terminal_handoff_witness :
    (readUntil (fun _ => ExitCriteria.Insufficient)
        [⟨false, true, false⟩] [] []).2 =
      some (TermKind.timedOut, ⟨[], some cmdTimedOutErr⟩) ∧
    (readUntil (fun _ => ExitCriteria.Insufficient)
        [⟨false, true, false⟩] [] []).1 =
      [ChanEvt.send ⟨[], some cmdTimedOutErr⟩, ChanEvt.close] :=
  ⟨by rfl,
    (c1_single_terminal_handoff (fun _ => ExitCriteria.Insufficient)
        [⟨false, true, false⟩] [] []).1
      TermKind.timedOut ⟨[], some cmdTimedOutErr⟩ (by rfl)⟩

/-- The rendered bytes are returned by `Command.Bytes` unchanged in every
branch. -/
theorem commandBytes_fst (c : Command) (str : List Char) : (c.Bytes str).1 = str := by
  unfold Command.Bytes
  split
  · rfl
  · split
    · split <;> rfl
    · rfl

/-- Claim C2: a Simple or Control call over a writer that obeys the
io.Writer contract (a short write carries a non-nil error) returns a nil
error only when the returned bytes satisfy the call's success
pattern/marker and do not satisfy its failure pattern/marker; and in every
classifier invocation the failure criterion (when non-nil) is tested
before the success criterion, so a buffer matching both is classified
Failure, never Success. -/
theorem c2_nil_error_implies_success_pattern :
    (∀ (cmd : List Nat) (success failure : Option (List Nat)) (wr : Nat × Option GoErr)
        (stream : List ReadEvt) (ctl : List SelectCtl) (t : CallTerm) (resp : Response),
      (wr.2 = none → wr.1 = cmd.length) →
      Simple cmd success failure wr stream ctl = some (t, resp) →
      resp.Error = none →
      (∃ s, success = some s ∧ s <:+: resp.Bytes) ∧
        (∀ f, failure = some f → ¬(f <:+: resp.Bytes))) ∧
    (∀ (cmd : Command) (rendered : List Char) (wr : Nat × Option GoErr)
        (stream : List ReadEvt) (ctl : List SelectCtl) (t : CallTerm) (resp : Response),
      (wr.2 = none → wr.1 = rendered.length) →
      Control cmd rendered wr stream ctl = some (t, resp) →
      resp.Error = none →
      (∃ re, cmd.Response = some re ∧ re resp.Bytes = true) ∧
        (∀ ef, cmd.Error = some ef → ef resp.Bytes = false)) ∧
    (∀ (success failure : Option (List Nat)) (raw f : List Nat),
      failure = some f → f <:+: raw → simpleCf success failure raw = ExitCriteria.Failure) ∧
    (∀ (cmd : Command) (raw : List Nat) (ef : List Nat → Bool),
      cmd.Error = some ef → ef raw = true → controlCf cmd raw = ExitCriteria.Failure) := by
  refine ⟨?_, ?_, ?_, ?_⟩
  · intro cmd success failure wr stream ctl t resp hw h he
    unfold Simple at h
    split at h
    · rename_i hcond
      simp only [Option.some.injEq, Prod.mk.injEq] at h
      obtain ⟨ht, hresp⟩ := h
      subst hresp
      have h2 : wr.2 = none := he
      have h1 : wr.1 = cmd.length := hw h2
      rw [h2, h1] at hcond
      simp at hcond
    · cases hr : (readUntil (simpleCf success failure) ctl (clearReadBuffer stream) []).2 with
      | none => rw [hr] at h; simp at h
      | some pr =>
        obtain ⟨k, st⟩ := pr
        rw [hr] at h
        simp only [Option.some.injEq, Prod.mk.injEq] at h
        obtain ⟨ht, hresp⟩ := h
        subst hresp
        have he2 : st.err = none := he
        have hcf := readUntil_nil_err_success _ _ _ _ _ _ hr he2
        rw [simpleCf_success_iff] at hcf
        obtain ⟨hf, hs⟩ := hcf
        constructor
        · cases success with
          | none => simp [optContains] at hs
          | some s =>
            refine ⟨s, rfl, ?_⟩
            simpa [optContains, containsSeq] using hs
        · intro f hfeq hinf
          subst hfeq
          simp only [optContains, containsSeq, decide_eq_false_iff_not] at hf
          exact hf hinf
  · intro cmd rendered wr stream ctl t resp hw h he
    unfold Control at h
    split at h
    · rename_i x e heq
      simp only [Option.some.injEq, Prod.mk.injEq] at h
      obtain ⟨ht, hresp⟩ := h
      subst hresp
      simp at he
    · rename_i rawBytes heq
      have hraw : rawBytes = rendered := by
        have hfst := commandBytes_fst cmd rendered
        rw [heq] at hfst
        exact hfst
      subst hraw
      split at h
      · rename_i hcond
        simp only [Option.some.injEq, Prod.mk.injEq] at h
        obtain ⟨ht, hresp⟩ := h
        subst hresp
        have h2 : wr.2 = none := he
        have h1 : wr.1 = rawBytes.length := hw h2
        rw [h2, h1] at hcond
        simp at hcond
      · cases hr : (readUntil (controlCf cmd) ctl (clearReadBuffer stream) []).2 with
        | none => rw [hr] at h; simp at h
        | some pr =>
          obtain ⟨k, st⟩ := pr
          rw [hr] at h
          simp only [Option.some.injEq, Prod.mk.injEq] at h
          obtain ⟨ht, hresp⟩ := h
          subst hresp
          have he2 : st.err = none := he
          have hcf := readUntil_nil_err_success _ _ _ _ _ _ hr he2
          rw [controlCf_success_iff] at hcf
          obtain ⟨hf, hs⟩ := hcf
          constructor
          · cases hre : cmd.Response with
            | none => rw [hre] at hs; simp [optMatch] at hs
            | some re =>
              refine ⟨re, rfl, ?_⟩
              rw [hre] at hs
              simpa [optMatch] using hs
          · intro ef hefeq
            rw [hefeq] at hf
            simpa [optMatch] using hf
  · intro success failure raw f hfeq hinf
    subst hfeq
    unfold simpleCf
    have : optContains (some f) raw = true := by
      simp [optContains, containsSeq, hinf]
    rw [this]
    rfl
  · intro cmd raw ef hefeq hmatch
    unfold controlCf
    rw [hefeq]
    have : optMatch (some ef) raw = true := by simp [optMatch, hmatch]
    rw [this]
    rfl

/-- A concrete successful Simple exchange: the conforming write, a drained
stale error, one byte matching the success marker; the returned bytes
contain the success marker and avoid the failure marker. -/
theorem c2_nil_error_implies_success_pattern_witness :
    Simple [9] (some [1]) (some [2]) (1, none)
        [ReadEvt.err true false true, ReadEvt.byte 1, ReadEvt.err true false true]
        [⟨false, false, false⟩] =
      some (CallTerm.acc TermKind.successMatch, ⟨[1], none⟩) ∧
    ((∃ s, (some [1] : Option (List Nat)) = some s ∧ s <:+: [1]) ∧
      (∀ f, (some [2] : Option (List Nat)) = some f → ¬(f <:+: ([1] : List Nat)))) :=
  ⟨by rfl,
    c2_nil_error_implies_success_pattern.1 [9] (some [1]) (some [2]) (1, none)
      [ReadEvt.err true false true, ReadEvt.byte 1, ReadEvt.err true false true]
      [⟨false, false, false⟩] (CallTerm.acc TermKind.successMatch) ⟨[1], none⟩
      (fun _ => rfl) (by rfl) rfl⟩

/-- Claim C3: a Simple or Control call that terminates because the
wall-clock timeout budget elapsed before the classifier matched returns a
non-nil error that is flagged both timeout and temporary, and the Response
carries the bytes accumulated up to that point (a prefix of what the
drained stream delivered). -/
theorem c3_timeout_flagged_temporary_and_timeout :
    (∀ (cmd : List Nat) (success failure : Option (List Nat)) (wr : Nat × Option GoErr)
        (stream : List ReadEvt) (ctl : List SelectCtl) (resp : Response),
      Simple cmd success failure wr stream ctl = some (CallTerm.acc TermKind.timedOut, resp) →
      (∃ e, resp.Error = some e ∧ IsTimeout (some e) = some true ∧
          IsTemporary (some e) = some true) ∧
        resp.Bytes <+: streamBytes (clearReadBuffer stream)) ∧
    (∀ (cmd : Command) (rendered : List Char) (wr : Nat × Option GoErr)
        (stream : List ReadEvt) (ctl : List SelectCtl) (resp : Response),
      Control cmd rendered wr stream ctl = some (CallTerm.acc TermKind.timedOut, resp) →
      (∃ e, resp.Error = some e ∧ IsTimeout (some e) = some true ∧
          IsTemporary (some e) = some true) ∧
        resp.Bytes <+: streamBytes (clearReadBuffer stream)) := by
  constructor
  · intro cmd success failure wr stream ctl resp h
    unfold Simple at h
    split at h
    · simp at h
    · cases hr : (readUntil (simpleCf success failure) ctl (clearReadBuffer stream) []).2 with
      | none => rw [hr] at h; simp at h
      | some pr =>
        obtain ⟨k, st⟩ := pr
        rw [hr] at h
        simp only [Option.some.injEq, Prod.mk.injEq, CallTerm.acc.injEq] at h
        obtain ⟨hk, hresp⟩ := h
        subst hk
        subst hresp
        obtain ⟨_, h2, _, _, _⟩ := readUntil_kind_spec _ _ _ _ _ _ hr
        obtain ⟨p, hp, hpre⟩ := readUntil_raw_prefix _ _ _ _ _ _ hr
        refine ⟨⟨cmdTimedOutErr, h2 rfl, rfl, rfl⟩, ?_⟩
        have : st.raw = p := by simpa using hp
        simpa [this] using hpre
  · intro cmd rendered wr stream ctl resp h
    unfold Control at h
    split at h
    · simp at h
    · split at h
      · simp at h
      · cases hr : (readUntil (controlCf cmd) ctl (clearReadBuffer stream) []).2 with
        | none => rw [hr] at h; simp at h
        | some pr =>
          obtain ⟨k, st⟩ := pr
          rw [hr] at h
          simp only [Option.some.injEq, Prod.mk.injEq, CallTerm.acc.injEq] at h
          obtain ⟨hk, hresp⟩ := h
          subst hk
          subst hresp
          obtain ⟨_, h2, _, _, _⟩ := readUntil_kind_spec _ _ _ _ _ _ hr
          obtain ⟨p, hp, hpre⟩ := readUntil_raw_prefix _ _ _ _ _ _ hr
          refine ⟨⟨cmdTimedOutErr, h2 rfl, rfl, rfl⟩, ?_⟩
          have : st.raw = p := by simpa using hp
          simpa [this] using hpre

/-- A Simple call against a silent stream whose timeout fires on the first
iteration: the returned error is flagged both timeout and temporary. -/
theorem c3_timeout_flagged_temporary_and_timeout_witness :
    Simple [9] none none (1, none) [ReadEvt.err true false true]
        [⟨false, true, false⟩] =
      some (CallTerm.acc TermKind.timedOut, ⟨[], some cmdTimedOutErr⟩) ∧
    ((∃ e, (⟨[], some cmdTimedOutErr⟩ : Response).Error = some e ∧
        IsTimeout (some e) = some true ∧ IsTemporary (some e) = some true) ∧
      (⟨[], some cmdTimedOutErr⟩ : Response).Bytes <+:
        streamBytes (clearReadBuffer [ReadEvt.err true false true])) :=
  ⟨by rfl,
    c3_timeout_flagged_temporary_and_timeout.1 [9] none none (1, none)
      [ReadEvt.err true false true] [⟨false, true, false⟩]
      ⟨[], some cmdTimedOutErr⟩ (by rfl)⟩

/-- Claim C4 fails on the code: at this concrete input the stream read
yields a genuinely fatal net.Error (neither timeout- nor temporary-
flagged), and the accumulator terminates with a fresh error
"Error Reading from buffer" whose timeout flag is true — the claim says
the underlying stream error is propagated as-is and flagged neither
temporary nor timeout. -/
theorem c4_counterexample_fatal_read_flagged_timeout :
    (readUntil (fun _ => ExitCriteria.Insufficient) [⟨false, false, false⟩]
        [ReadEvt.err true false false] []).2 =
      some (TermKind.streamFatal, ⟨[], some readFatalErr⟩) ∧
    IsTimeout (some readFatalErr) = some true ∧
    readFatalErr = newErr false true (GoErr.plainErr "Error Reading from buffer") :=
  ⟨by rfl, by rfl, rfl⟩

/-- Claim C4 (amended): an accumulator iteration in which a stream read
yields a net.Error that is neither timeout- nor temporary-flagged
terminates the accumulation with the fresh error "Error Reading from
buffer", flagged timeout=true and temporary=false (the underlying stream
error is not propagated); a timeout-flavoured read error does not
terminate the loop — it is treated as a read that delivered zero
additional bytes and reading continues. -/
theorem c4_fatal_read_fresh_error :
    (∀ (cf : CheckFunc) (ctl : List SelectCtl) (stream : List ReadEvt)
        (acc : List Nat) (st : status),
      (readUntil cf ctl stream acc).2 = some (TermKind.streamFatal, st) →
      st.err = some readFatalErr ∧ IsTemporary (some readFatalErr) = some false ∧
        IsTimeout (some readFatalErr) = some true) ∧
    (∀ (temporary : Bool) (rest : List ReadEvt) (acc : List Nat),
      innerRead (ReadEvt.err true temporary true :: rest) acc = InnerOut.exit acc rest) := by
  constructor
  · intro cf ctl stream acc st h
    obtain ⟨_, _, h3, _, _⟩ := readUntil_kind_spec cf ctl stream acc _ st h
    exact ⟨h3 rfl, rfl, rfl⟩
  · intro temporary rest acc
    rfl

/-- A fatal read after one delivered byte terminates the run with the
fresh flagged error; the timeout-flavoured error case continues. -/
theorem c4_fatal_read_fresh_error_witness :
    (readUntil (fun _ => ExitCriteria.Insufficient) [⟨false, false, false⟩]
        [ReadEvt.byte 7, ReadEvt.err true false false] []).2 =
      some (TermKind.streamFatal, ⟨[7], some readFatalErr⟩) ∧
    ((⟨[7], some readFatalErr⟩ : status).err = some readFatalErr ∧
      IsTemporary (some readFatalErr) = some false ∧
      IsTimeout (some readFatalErr) = some true) :=
  ⟨by rfl,
    c4_fatal_read_fresh_error.1 (fun _ => ExitCriteria.Insufficient)
      [⟨false, false, false⟩] [ReadEvt.byte 7, ReadEvt.err true false false] []
      ⟨[7], some readFatalErr⟩ (by rfl)⟩

/-- `NetClient.Close` never panics and always cancels the context, nils
the connection, and returns the connection's close result (nil when no
connection was open). -/
theorem netClientClose_total (nc : NetClient) (res : Option GoErr) :
    NetClient.Close nc res =
      some ((if nc.conn.isSome then res else none), ⟨true, none⟩) := by
  unfold NetClient.Close connClose
  cases hc : nc.conn <;> simp [hc]

/-- `SerialClient.Close` never panics; it preserves the context flag,
nils the connection, and returns the context error when the context has
collapsed, the wrapped connection close result when a connection was
open, and nil otherwise. -/
theorem serialClientClose_total (sc : SerialClient) (res : Option GoErr) :
    SerialClient.Close sc res =
      some ((if sc.ctxDone then some (newErr false false (GoErr.plainErr "context canceled"))
            else if sc.conn.isSome then some (newErr false false (innerOrNil res))
            else none),
        ⟨sc.ctxDone, none⟩) := by
  unfold SerialClient.Close connClose
  by_cases hd : sc.ctxDone = true
  · simp [hd]
  · cases hc : sc.conn with
    | none => simp [hd, hc]
    | some u => simp [hd, hc]

/-- `Arb.Close` over a NetClient-backed arbiter. -/
theorem arbClose_net (d : Bool) (nc : NetClient) (res : Option GoErr) :
    Arb.Close ⟨d, IDoIOState.net nc⟩ res =
      some ((if nc.conn.isSome then res else none),
        ⟨true, IDoIOState.net ⟨true, none⟩⟩) := by
  obtain ⟨b, conn⟩ := nc
  cases conn <;> rfl

/-- `Arb.Close` over a SerialClient-backed arbiter. -/
theorem arbClose_serial (d : Bool) (sc : SerialClient) (res : Option GoErr) :
    Arb.Close ⟨d, IDoIOState.serial sc⟩ res =
      some ((if sc.ctxDone then some (newErr false false (GoErr.plainErr "context canceled"))
            else if sc.conn.isSome then some (newErr false false (innerOrNil res))
            else none),
        ⟨true, IDoIOState.serial ⟨sc.ctxDone, none⟩⟩) := by
  obtain ⟨cd, conn⟩ := sc
  cases cd <;> cases conn <;> rfl

/-- Claim C5 fails on the code: on a SerialClient-backed Arbiter a Close
succeeds (returns nil — the connection is already down and the context
alive), and after the context chain collapses a later Close returns
`newErr(false, false, sc.ctx.Err())`, a non-nil error, contradicting
"every Close call after the first successful close returns nil". -/
theorem c5_counterexample_serial_close_after_cancel :
    Arb.Close ⟨false, IDoIOState.serial ⟨false, none⟩⟩ none =
      some (none, ⟨true, IDoIOState.serial ⟨false, none⟩⟩) ∧
    Arb.Close ⟨true, IDoIOState.serial ⟨true, none⟩⟩ none =
      some (some (newErr false false (GoErr.plainErr "context canceled")),
        ⟨true, IDoIOState.serial ⟨true, none⟩⟩) ∧
    (some (newErr false false (GoErr.plainErr "context canceled")) ≠ (none : Option GoErr)) :=
  ⟨by rfl, by rfl, by decide⟩

/-- Claim C5 (amended): calling Close repeatedly on an Arbiter never
panics, whichever transport the interface holds (the nil-connection
dereferences are guarded); over the NetClient transport every Close call
after the first returns nil; over the SerialClient transport a Close call
after the first returns nil while the serial client's context is alive,
but once the context chain has collapsed every Close call — even after an
earlier successful close — returns a non-nil context error. -/
theorem c5_close_per_transport :
    (∀ (a : Arb) (res : Option GoErr), (Arb.Close a res).isSome = true) ∧
    (∀ (d : Bool) (nc : NetClient) (res res2 : Option GoErr) (r : Option GoErr × Arb),
      Arb.Close ⟨d, IDoIOState.net nc⟩ res = some r →
      Arb.Close r.2 res2 = some (none, ⟨true, IDoIOState.net ⟨true, none⟩⟩)) ∧
    (∀ (d : Bool) (sc : SerialClient) (res res2 : Option GoErr) (r : Option GoErr × Arb),
      sc.ctxDone = false →
      Arb.Close ⟨d, IDoIOState.serial sc⟩ res = some r →
      Arb.Close r.2 res2 = some (none, ⟨true, IDoIOState.serial ⟨false, none⟩⟩)) ∧
    (∀ (d : Bool) (sc : SerialClient) (res : Option GoErr),
      sc.ctxDone = true →
      Arb.Close ⟨d, IDoIOState.serial sc⟩ res =
        some (some (newErr false false (GoErr.plainErr "context canceled")),
          ⟨true, IDoIOState.serial ⟨true, none⟩⟩)) := by
  refine ⟨?_, ?_, ?_, ?_⟩
  · intro a res
    obtain ⟨d, io⟩ := a
    cases io with
    | net nc => rw [arbClose_net]; rfl
    | serial sc => rw [arbClose_serial]; rfl
    | invalid msg => rfl
  · intro d nc res res2 r hr
    rw [arbClose_net] at hr
    have h2 : r.2 = ⟨true, IDoIOState.net ⟨true, none⟩⟩ := by
      have := Option.some.inj hr
      rw [this.symm]
    rw [h2, arbClose_net]
    rfl
  · intro d sc res res2 r hd hr
    rw [arbClose_serial] at hr
    have h2 : r.2 = ⟨true, IDoIOState.serial ⟨sc.ctxDone, none⟩⟩ := by
      have := Option.some.inj hr
      rw [this.symm]
    rw [h2, hd, arbClose_serial]
    rfl
  · intro d sc res hd
    rw [arbClose_serial, hd]
    rfl

/-- A NetClient-backed close chain (error surfaced once, nil afterwards)
and a SerialClient-backed close after the context collapsed (non-nil). -/
theorem c5_close_per_transport_witness :
    Arb.Close ⟨false, IDoIOState.net ⟨false, some ()⟩⟩ (some (GoErr.plainErr "close failed")) =
      some (some (GoErr.plainErr "close failed"), ⟨true, IDoIOState.net ⟨true, none⟩⟩) ∧
    Arb.Close (⟨true, IDoIOState.net ⟨true, none⟩⟩ : Arb) none =
      some (none, ⟨true, IDoIOState.net ⟨true, none⟩⟩) ∧
    Arb.Close ⟨false, IDoIOState.serial ⟨true, none⟩⟩ none =
      some (some (newErr false false (GoErr.plainErr "context canceled")),
        ⟨true, IDoIOState.serial ⟨true, none⟩⟩) :=
  ⟨by rfl,
    c5_close_per_transport.2.1 false ⟨false, some ()⟩ (some (GoErr.plainErr "close failed")) none
      (some (GoErr.plainErr "close failed"), ⟨true, IDoIOState.net ⟨true, none⟩⟩) (by rfl),
    c5_close_per_transport.2.2.2 false ⟨true, none⟩ none rfl⟩

/-- Claim C6: when the classifier of a Control call reports Failure — in
particular whenever the accumulated buffer matches the Command's failure
(`Error`) pattern, which is tested first — the returned Response.Error is
the package sentinel ErrErrorResponse, on which IsTimeout and IsTemporary
both report false. -/
theorem c6_failure_yields_sentinel :
    (∀ (cmd : Command) (raw : List Nat) (ef : List Nat → Bool),
      cmd.Error = some ef → ef raw = true →
      controlCf cmd raw = ExitCriteria.Failure) ∧
    (∀ (cmd : Command) (rendered : List Char) (wr : Nat × Option GoErr)
        (stream : List ReadEvt) (ctl : List SelectCtl) (resp : Response),
      Control cmd rendered wr stream ctl = some (CallTerm.acc TermKind.failureMatch, resp) →
      resp.Error = some ErrErrorResponse) ∧
    IsTimeout (some ErrErrorResponse) = some false ∧
    IsTemporary (some ErrErrorResponse) = some false := by
  refine ⟨?_, ?_, rfl, rfl⟩
  · intro cmd raw ef hefeq hmatch
    unfold controlCf
    rw [hefeq]
    have hm : optMatch (some ef) raw = true := by simp [optMatch, hmatch]
    rw [hm]
    rfl
  · intro cmd rendered wr stream ctl resp h
    unfold Control at h
    split at h
    · simp at h
    · split at h
      · simp at h
      · cases hr : (readUntil (controlCf cmd) ctl (clearReadBuffer stream) []).2 with
        | none => rw [hr] at h; simp at h
        | some pr =>
          obtain ⟨k, st⟩ := pr
          rw [hr] at h
          simp only [Option.some.injEq, Prod.mk.injEq, CallTerm.acc.injEq] at h
          obtain ⟨hk, hresp⟩ := h
          subst hk
          subst hresp
          obtain ⟨_, _, _, h4, _⟩ := readUntil_kind_spec _ _ _ _ _ _ hr
          exact (h4 rfl).1

/-- A Control exchange whose response bytes match the Command's Error
regexp ends with the sentinel ErrErrorResponse. -/
theorem c6_failure_yields_sentinel_witness :
    Control ⟨"w", 0, "p", none, none, some (fun raw => raw == [2]), ""⟩
        ['A'] (1, none)
        [ReadEvt.err true false true, ReadEvt.byte 2, ReadEvt.err true false true]
        [⟨false, false, false⟩] =
      some (CallTerm.acc TermKind.failureMatch, ⟨[2], some ErrErrorResponse⟩) ∧
    (⟨[2], some ErrErrorResponse⟩ : Response).Error = some ErrErrorResponse :=
  ⟨by rfl,
    c6_failure_yields_sentinel.2.1 ⟨"w", 0, "p", none, none, some (fun raw => raw == [2]), ""⟩
      ['A'] (1, none)
      [ReadEvt.err true false true, ReadEvt.byte 2, ReadEvt.err true false true]
      [⟨false, false, false⟩] ⟨[2], some ErrErrorResponse⟩ (by rfl)⟩

/-- Draining the pre-exchange buffer consumes exactly the stale bytes and
the error that ends the drain loop. -/
theorem clearReadBuffer_drains (stale : List Nat) (isNet temporary timeout : Bool)
    (rest : List ReadEvt) :
    clearReadBuffer (stale.map ReadEvt.byte ++ ReadEvt.err isNet temporary timeout :: rest) =
      rest := by
  induction stale with
  | nil => rfl
  | cons b tail ih => simpa [clearReadBuffer] using ih

/-- Claim C7: all bytes already buffered on the stream when a Simple or
Control call begins are drained before the command is written: the call's
result is identical with and without the stale bytes, and the returned
Response.Bytes is drawn only from the post-drain remainder, so stale bytes
never appear in it and never produce a spurious match. -/
theorem c7_stale_buffer_discarded :
    (∀ (stale : List Nat) (isNet temporary timeout : Bool) (rest : List ReadEvt),
      clearReadBuffer (stale.map ReadEvt.byte ++ ReadEvt.err isNet temporary timeout :: rest) =
        rest) ∧
    (∀ (cmd : List Nat) (success failure : Option (List Nat)) (wr : Nat × Option GoErr)
        (ctl : List SelectCtl) (stale : List Nat) (isNet temporary timeout : Bool)
        (rest : List ReadEvt),
      Simple cmd success failure wr
          (stale.map ReadEvt.byte ++ ReadEvt.err isNet temporary timeout :: rest) ctl =
        Simple cmd success failure wr (ReadEvt.err isNet temporary timeout :: rest) ctl) ∧
    (∀ (cmd : Command) (rendered : List Char) (wr : Nat × Option GoErr)
        (ctl : List SelectCtl) (stale : List Nat) (isNet temporary timeout : Bool)
        (rest : List ReadEvt),
      Control cmd rendered wr
          (stale.map ReadEvt.byte ++ ReadEvt.err isNet temporary timeout :: rest) ctl =
        Control cmd rendered wr (ReadEvt.err isNet temporary timeout :: rest) ctl) ∧
    (∀ (cmd : List Nat) (success failure : Option (List Nat)) (wr : Nat × Option GoErr)
        (ctl : List SelectCtl) (stale : List Nat) (isNet temporary timeout : Bool)
        (rest : List ReadEvt) (t : CallTerm) (resp : Response),
      Simple cmd success failure wr
          (stale.map ReadEvt.byte ++ ReadEvt.err isNet temporary timeout :: rest) ctl =
        some (t, resp) →
      resp.Bytes <+: streamBytes rest) := by
  refine ⟨clearReadBuffer_drains, ?_, ?_, ?_⟩
  · intro cmd success failure wr ctl stale isNet temporary timeout rest
    unfold Simple
    rw [clearReadBuffer_drains]
    rfl
  · intro cmd rendered wr ctl stale isNet temporary timeout rest
    unfold Control
    rw [clearReadBuffer_drains]
    rfl
  · intro cmd success failure wr ctl stale isNet temporary timeout rest t resp h
    unfold Simple at h
    split at h
    · simp only [Option.some.injEq, Prod.mk.injEq] at h
      obtain ⟨ht, hresp⟩ := h
      subst hresp
      exact List.nil_prefix
    · rw [clearReadBuffer_drains] at h
      cases hr : (readUntil (simpleCf success failure) ctl rest []).2 with
      | none => rw [hr] at h; simp at h
      | some pr =>
        obtain ⟨k, st⟩ := pr
        rw [hr] at h
        simp only [Option.some.injEq, Prod.mk.injEq] at h
        obtain ⟨ht, hresp⟩ := h
        subst hresp
        obtain ⟨p, hp, hpre⟩ := readUntil_raw_prefix _ _ _ _ _ _ hr
        have : st.raw = p := by simpa using hp
        simpa [this] using hpre

/-- Stale bytes containing the failure marker are discarded and the fresh
response still matches the success marker. -/
theorem c7_stale_buffer_discarded_witness :
    Simple [9] (some [1]) (some [2]) (1, none)
        (([5, 2].map ReadEvt.byte) ++
          ReadEvt.err true false true :: [ReadEvt.byte 1, ReadEvt.err true false true])
        [⟨false, false, false⟩] =
      some (CallTerm.acc TermKind.successMatch, ⟨[1], none⟩) ∧
    (⟨[1], none⟩ : Response).Bytes <+:
      streamBytes [ReadEvt.byte 1, ReadEvt.err true false true] :=
  ⟨by rfl,
    c7_stale_buffer_discarded.2.2.2 [9] (some [1]) (some [2]) (1, none)
      [⟨false, false, false⟩] [5, 2] true false true
      [ReadEvt.byte 1, ReadEvt.err true false true]
      (CallTerm.acc TermKind.successMatch) ⟨[1], none⟩ (by rfl)⟩

/-- Claim C8: for a Command whose validation pattern (CommandRegexp) is
nil, rendering never fails with ErrBytesFormat whatever the formatted
arguments produced; the only possible error is ErrBytesArgs, signalled
exactly when the formatted string contains the "%!" bad-argument marker;
and the best-effort rendered bytes are returned in every case, errors
included. -/
theorem c8_nil_regexp_never_format_error (c : Command) (str : List Char)
    (h : c.CommandRegexp = none) :
    (c.Bytes str).2 ≠ some ErrBytesFormat ∧
    ((c.Bytes str).2 = none ∨ (c.Bytes str).2 = some ErrBytesArgs) ∧
    ((c.Bytes str).2 = some ErrBytesArgs ↔ containsSeq str ['%', '!'] = true) ∧
    (c.Bytes str).1 = str := by
  unfold Command.Bytes
  rw [h]
  by_cases hin : containsSeq str ['%', '!'] = true
  · rw [if_pos hin]
    refine ⟨?_, Or.inr rfl, ⟨fun _ => hin, fun _ => rfl⟩, rfl⟩
    intro hbad
    simp only [Option.some.injEq] at hbad
    exact absurd hbad (by simp [ErrBytesArgs, ErrBytesFormat])
  · rw [if_neg hin]
    exact ⟨by simp, Or.inl rfl, ⟨by simp, fun hc => absurd hc hin⟩, rfl⟩

/-- A nil-regexp Command whose rendering contains "%!" returns the bytes
together with ErrBytesArgs and never ErrBytesFormat. -/
theorem c8_nil_regexp_never_format_error_witness :
    (⟨"n", 0, "p", none, none, none, ""⟩ : Command).CommandRegexp = none ∧
    ((Command.Bytes ⟨"n", 0, "p", none, none, none, ""⟩ ['%', '!']).2 ≠ some ErrBytesFormat ∧
      ((Command.Bytes ⟨"n", 0, "p", none, none, none, ""⟩ ['%', '!']).2 = none ∨
        (Command.Bytes ⟨"n", 0, "p", none, none, none, ""⟩ ['%', '!']).2 = some ErrBytesArgs) ∧
      ((Command.Bytes ⟨"n", 0, "p", none, none, none, ""⟩ ['%', '!']).2 = some ErrBytesArgs ↔
        containsSeq ['%', '!'] ['%', '!'] = true) ∧
      (Command.Bytes ⟨"n", 0, "p", none, none, none, ""⟩ ['%', '!']).1 = ['%', '!']) :=
  ⟨rfl, c8_nil_regexp_never_format_error ⟨"n", 0, "p", none, none, none, ""⟩ ['%', '!'] rfl⟩

/-- Claim C9: a Simple or Control call whose write returns an error or
writes fewer bytes than the command's length aborts immediately with the
write error as the Response's error and an empty byte slice; no reading or
classification occurs (the result does not depend on the stream or on the
select trace). -/
theorem c9_short_write_aborts :
    (∀ (cmd : List Nat) (success failure : Option (List Nat)) (wr : Nat × Option GoErr)
        (stream : List ReadEvt) (ctl : List SelectCtl),
      (wr.2 ≠ none ∨ wr.1 ≠ cmd.length) →
      Simple cmd success failure wr stream ctl =
        some (CallTerm.writeFail, ⟨[], wr.2⟩)) ∧
    (∀ (cmd : Command) (rendered : List Char) (wr : Nat × Option GoErr)
        (stream : List ReadEvt) (ctl : List SelectCtl),
      (cmd.Bytes rendered).2 = none →
      (wr.2 ≠ none ∨ wr.1 ≠ rendered.length) →
      Control cmd rendered wr stream ctl =
        some (CallTerm.writeFail, ⟨[], wr.2⟩)) := by
  constructor
  · intro cmd success failure wr stream ctl h
    have hcond : (wr.2.isSome || cmd.length != wr.1) = true := by
      rcases h with h | h
      · simp [Option.isSome_iff_ne_none.mpr h]
      · simp [bne_iff_ne, Ne.symm h]
    unfold Simple
    rw [if_pos hcond]
  · intro cmd rendered wr stream ctl hB h
    have hfst := commandBytes_fst cmd rendered
    unfold Control
    split
    · rename_i x e heq
      rw [heq] at hB
      simp at hB
    · rename_i rawBytes heq
      have hraw : rawBytes = rendered := by
        rw [heq] at hfst
        exact hfst
      subst hraw
      have hcond : (wr.2.isSome || rawBytes.length != wr.1) = true := by
        rcases h with h | h
        · simp [Option.isSome_iff_ne_none.mpr h]
        · simp [bne_iff_ne, Ne.symm h]
      rw [if_pos hcond]

/-- A write that fails with an error aborts the exchange before any read:
the Response carries that error and no bytes. -/
theorem c9_short_write_aborts_witness :
    Simple [9] (some [1]) (some [2]) (1, some (GoErr.plainErr "broken pipe"))
        [ReadEvt.byte 1, ReadEvt.err true false true] [⟨false, false, false⟩] =
      some (CallTerm.writeFail, ⟨[], some (GoErr.plainErr "broken pipe")⟩) :=
  c9_short_write_aborts.1 [9] (some [1]) (some [2])
    (1, some (GoErr.plainErr "broken pipe"))
    [ReadEvt.byte 1, ReadEvt.err true false true] [⟨false, false, false⟩]
    (Or.inl (by simp))

/-- Claim C10: NewArbiter always hands back a non-nil Arbiter, and when
the dial string matches no known transport the non-nil construction error
is accompanied by an Arbiter wrapping the InvalidIO placeholder rather
than a nil Arbiter, so a caller checking only the Arbiter for nil will not
detect the failure. -/
theorem c10_new_arbiter_never_nil :
    (∀ (netMatch serialMatch : String → Bool) (openErr : Option GoErr) (dial : String),
      (NewArbiter netMatch serialMatch openErr dial).1.isSome = true) ∧
    (∀ (netMatch serialMatch : String → Bool) (openErr : Option GoErr) (dial : String),
      netMatch dial = false → serialMatch dial = false →
      (NewArbiter netMatch serialMatch openErr dial).2 ≠ none ∧
        (NewArbiter netMatch serialMatch openErr dial).1 =
          some ⟨some (IDoIOv.invalid ("No known way to create a IOStreamer from " ++ dial))⟩) := by
  constructor
  · intro netMatch serialMatch openErr dial
    rfl
  · intro netMatch serialMatch openErr dial hnet hser
    unfold NewArbiter NewIDoIOv
    rw [hnet, hser]
    simp

/-- Dialling a string no transport recognises: the error is non-nil and
the returned Arbiter is non-nil, wrapping the InvalidIO placeholder. -/
theorem c10_new_arbiter_never_nil_witness :
    (NewArbiter (fun _ => false) (fun _ => false) none "no-op").1.isSome = true ∧
    ((NewArbiter (fun _ => false) (fun _ => false) none "no-op").2 ≠ none ∧
      (NewArbiter (fun _ => false) (fun _ => false) none "no-op").1 =
        some ⟨some (IDoIOv.invalid ("No known way to create a IOStreamer from " ++ "no-op"))⟩) :=
  ⟨(c10_new_arbiter_never_nil.1 (fun _ => false) (fun _ => false) none "no-op"),
    c10_new_arbiter_never_nil.2 (fun _ => false) (fun _ => false) none "no-op" rfl rfl⟩

end agnoio
